import Mathlib

set_option autoImplicit false

/-!
Verification of the instruction codec of the Silver-Skies/Processor virtual
processor core. The definitions below are a shallow embedding of
`src/emulator/processor/processor/instruction.rs` (bitfield codec, `Driver`,
`Registers`, `Data::new`, `Instruction::new`, `Instruction::encode`,
`Instruction::destination`) and `src/instruction/src/absolute.rs`.
Machine bytes are `Nat` values below 256; bitwise operations mirror the
Rust `u8` operations exactly. Parts of the repository that the codec uses
but whose source is absent (the emulator `number`, `operand` and `operation`
modules) are modelled from the specification and marked as such.
-/

namespace number

/-- Modelled from the spec: the emulator `number::Size` type, absent from the
sources. `Size ∈ {Byte=1, Word=2, Dual=4, Quad=8}`, encoded as a 2-bit
exponent with byte-count `2^e` (spec §3). -/
inductive Size where
  | Byte
  | Word
  | Dual
  | Quad
deriving DecidableEq, Repr

/-- Modelled from the spec: `size_from_exponent(e)` is total over {0..3} and
fails otherwise (spec §3). -/
def Size.from_exponent (exponent : Nat) : Option Size :=
  match exponent with
  | 0 => some .Byte
  | 1 => some .Word
  | 2 => some .Dual
  | 3 => some .Quad
  | _ => none

/-- Modelled from the spec: the 2-bit exponent of a size (spec §3). -/
def Size.exponent : Size → Nat
  | .Byte => 0
  | .Word => 1
  | .Dual => 2
  | .Quad => 3

/-- Modelled from the spec: byte-count of a size, `2^e` (spec §3). -/
def Size.bytes : Size → Nat
  | .Byte => 1
  | .Word => 2
  | .Dual => 4
  | .Quad => 8

/-- Modelled from the spec: the emulator `number::Data` value, a width-tagged
integer `(Size, uN)` with little-endian external byte order (spec §3). -/
inductive Data where
  | Byte (value : Nat)
  | Word (value : Nat)
  | Dual (value : Nat)
  | Quad (value : Nat)
deriving DecidableEq, Repr

/-- Modelled from the spec: the size exponent of a tagged value (spec §3). -/
def Data.exponent : Data → Nat
  | .Byte _ => 0
  | .Word _ => 1
  | .Dual _ => 2
  | .Quad _ => 3

end number

/-- Little-endian byte list of a value, `n` bytes long; each emitted byte is
reduced modulo 256 exactly as machine-integer serialization does. -/
def leBytes : Nat → Nat → List Nat
  | 0, _ => []
  | n + 1, value => value % 256 :: leBytes n (value / 256)

/-- Value of a little-endian byte list; each byte is reduced modulo 256 (a
byte is a `u8`). -/
def leValue : List Nat → Nat
  | [] => 0
  | b :: rest => b % 256 + 256 * leValue rest

namespace number

/-- Modelled from the spec: `number::Data::to_le_bytes`, little-endian
serialization of a tagged value over its byte-count (spec §3). -/
def Data.to_le_bytes : Data → List Nat
  | .Byte value => leBytes 1 value
  | .Word value => leBytes 2 value
  | .Dual value => leBytes 4 value
  | .Quad value => leBytes 8 value

/-- Modelled from the spec: build a tagged value from a 2-bit size exponent
(spec §3; exponents beyond 3 are quantized to `Quad`, the spec fixes the
field to 2 bits). -/
def Data.of_exponent (exponent value : Nat) : Data :=
  match exponent with
  | 0 => .Byte value
  | 1 => .Word value
  | 2 => .Dual value
  | _ => .Quad value

/-- The tagged value is within the width of its size tag (a `uN` field). -/
def Data.validB : Data → Bool
  | .Byte value => decide (value < 2 ^ 8)
  | .Word value => decide (value < 2 ^ 16)
  | .Dual value => decide (value < 2 ^ 32)
  | .Quad value => decide (value < 2 ^ 64)

end number

-- region: Binary processor bit masks (instruction.rs lines 43-51)

def DRIVER0_EXTENSION_MASK : Nat := 0b11111100
def DRIVER0_SYNCHRONISE_MASK : Nat := 0b00000010
def DRIVER0_DYNAMIC_DESTINATION : Nat := 0b00000001
def DRIVER1_OPERATION_MASK : Nat := 0b11110000
def DRIVER1_ADDRESSING_MASK : Nat := 0b00001100
def DRIVER1_ADDRESSING_PARAMETER_MASK : Nat := 0b00000011
def REGISTERS_WIDTH_MASK : Nat := 0b11000000
def REGISTERS_STATIC_OPERAND_MASK : Nat := 0b00111000
def REGISTERS_DYNAMIC_OPERAND_MASK : Nat := 0b00000111

-- endregion

-- region: Driver0Encoding for u8 (instruction.rs lines 152-231)

def extract_extension (x : Nat) : Nat :=
  (DRIVER0_EXTENSION_MASK &&& x) >>> 2

def set_extension (x extension : Nat) : Nat :=
  ((255 ^^^ DRIVER0_EXTENSION_MASK) &&& x) ||| ((0b00111111 &&& extension) <<< 2)

def extract_synchronise (x : Nat) : Bool :=
  ((DRIVER0_SYNCHRONISE_MASK &&& x) >>> 1) == 1

def set_synchronise (x : Nat) (lock : Bool) : Nat :=
  ((255 ^^^ DRIVER0_SYNCHRONISE_MASK) &&& x) ||| ((if lock then 1 else 0) <<< 1)

def extract_dynamic_destination (x : Nat) : Bool :=
  (DRIVER0_DYNAMIC_DESTINATION &&& x) == 1

def set_dynamic_destination (x : Nat) (dynamic_destination : Bool) : Nat :=
  ((255 ^^^ DRIVER0_DYNAMIC_DESTINATION) &&& x) ||| (if dynamic_destination then 1 else 0)

-- endregion

-- region: Driver1Encoding for u8 (instruction.rs lines 250-332)

def extract_operation (x : Nat) : Nat :=
  (DRIVER1_OPERATION_MASK &&& x) >>> 4

def set_operation (x operation : Nat) : Nat :=
  ((255 ^^^ DRIVER1_OPERATION_MASK) &&& x) ||| ((0b00001111 &&& operation) <<< 4)

def extract_addressing (x : Nat) : Nat :=
  (DRIVER1_ADDRESSING_MASK &&& x) >>> 2

def set_addressing (x addressing : Nat) : Nat :=
  ((255 ^^^ DRIVER1_ADDRESSING_MASK) &&& x) ||| ((0b00000011 &&& addressing) <<< 2)

def extract_immediate_exponent (x : Nat) : Nat :=
  DRIVER1_ADDRESSING_PARAMETER_MASK &&& x

def set_immediate_exponent (x immediate_exponent : Nat) : Nat :=
  ((255 ^^^ DRIVER1_ADDRESSING_PARAMETER_MASK) &&& x) ||| (0b00000011 &&& immediate_exponent)

-- endregion

-- region: RegistersEncoding for u8 (instruction.rs lines 393-471)

def extract_width (x : Nat) : Nat :=
  (REGISTERS_WIDTH_MASK &&& x) >>> 6

def set_width (x width : Nat) : Nat :=
  ((255 ^^^ REGISTERS_WIDTH_MASK) &&& x) ||| ((0b00000011 &&& width) <<< 6)

def extract_static (x : Nat) : Nat :=
  (REGISTERS_STATIC_OPERAND_MASK &&& x) >>> 3

def set_static (x x_static : Nat) : Nat :=
  ((255 ^^^ REGISTERS_STATIC_OPERAND_MASK) &&& x) ||| ((0b00000111 &&& x_static) <<< 3)

def extract_dynamic (x : Nat) : Nat :=
  REGISTERS_DYNAMIC_OPERAND_MASK &&& x

def set_dynamic (x dynamic : Nat) : Nat :=
  ((255 ^^^ REGISTERS_DYNAMIC_OPERAND_MASK) &&& x) ||| (0b00000111 &&& dynamic)

-- endregion

/-- Structured data from the driver bytes (instruction.rs lines 56-68). -/
structure Driver where
  extension : Nat
  operation : Nat
  synchronise : Bool
  dynamic_destination : Bool
  addressing : Nat
  immediate_exponent : Nat
deriving DecidableEq, Repr

/-- Decode the driver bytes into an instance of a driver
(instruction.rs lines 87-99, `Driver::new`). -/
def Driver.new (byte0 byte1 : Nat) : Driver :=
  { extension := extract_extension byte0
    operation := extract_operation byte1
    synchronise := extract_synchronise byte0
    dynamic_destination := extract_dynamic_destination byte0
    addressing := extract_addressing byte1
    immediate_exponent := extract_immediate_exponent byte1 }

/-- Encode a driver into its two bytes (instruction.rs lines 123-133,
`Driver::encode`). -/
def Driver.encode (d : Driver) : Nat × Nat :=
  let driver0a := set_extension 0 d.extension
  let driver0b := set_synchronise driver0a d.synchronise
  let driver0 := set_dynamic_destination driver0b d.dynamic_destination
  let driver1a := set_operation 0 d.operation
  let driver1b := set_addressing driver1a d.addressing
  let driver1 := set_immediate_exponent driver1b d.immediate_exponent
  (driver0, driver1)

/-- Register byte structure (instruction.rs lines 336-341). -/
structure Registers where
  width : Nat
  x_static : Nat
  x_dynamic : Nat
deriving DecidableEq, Repr

/-- Decode the registers byte (instruction.rs lines 353-359,
`Registers::new`). -/
def Registers.new (encoded : Nat) : Registers :=
  { width := extract_width encoded
    x_static := extract_static encoded
    x_dynamic := extract_dynamic encoded }

/-- Encode the registers structure into its byte (instruction.rs lines
369-373, `Registers::encode`). -/
def Registers.encode (r : Registers) : Nat :=
  let encoded0 := set_width 0 r.width
  let encoded1 := set_static encoded0 r.x_static
  set_dynamic encoded1 r.x_dynamic

-- region: operand model.
-- The emulator `operand` module is absent from the sources; it is modelled
-- from spec §3 and §4.4, anchored on the constants the in-source doc tests
-- pin down (`CONSTANT_ADDRESSING` encodes as addressing bits `0b10`, and
-- addressing 0 with no immediate is register addressing).

namespace operand

/-- Modelled from the spec: dynamic-operand addressing codes (spec §3: a
2-bit `addressing` field selecting Register / Constant / MemoryAtRegister /
MemoryAtConstant). The numeric code for `Register` (0) follows the
`Data::new` doc test and the code for `Constant` (2) follows the
`encode_driver_registers_immediate` doc test in instruction.rs; the two
memory modes take the remaining codes. -/
def REGISTER_ADDRESSING : Nat := 0

/-- Modelled from the spec: see `REGISTER_ADDRESSING`. -/
def MEMORY_REGISTER_ADDRESSING : Nat := 1

/-- Modelled from the spec: see `REGISTER_ADDRESSING`. This value is pinned
by the instruction.rs doc test where `addressing = CONSTANT_ADDRESSING`
encodes to driver byte 1 `0b00001000`. -/
def CONSTANT_ADDRESSING : Nat := 2

/-- Modelled from the spec: see `REGISTER_ADDRESSING`. -/
def MEMORY_CONSTANT_ADDRESSING : Nat := 3

/-- Modelled from the spec: the immediate exponent denoting a 1-byte
immediate (spec §3: byte-count = `2^e`). -/
def IMMEDIATE_EXPONENT_BYTE : Nat := 0

/-- Modelled from the spec: the dynamic operand (spec §3). The `Memory`
variant with base `Register`/`Constant` is flattened into two constructors;
as the in-source example `arithmetic.rs` shows, the operand stores no
separate width (the instruction data's width applies). -/
inductive Dynamic where
  | Register (register : Nat)
  | MemoryRegister (register : Nat)
  | Constant (immediate : number.Data)
  | MemoryConstant (immediate : number.Data)
deriving DecidableEq, Repr

/-- Modelled from the spec: the addressing code of a dynamic operand
(spec §4.6: encode derives `addressing` from the dynamic operand). -/
def Dynamic.addressing : Dynamic → Nat
  | .Register _ => REGISTER_ADDRESSING
  | .MemoryRegister _ => MEMORY_REGISTER_ADDRESSING
  | .Constant _ => CONSTANT_ADDRESSING
  | .MemoryConstant _ => MEMORY_CONSTANT_ADDRESSING

/-- Modelled from the spec: the register index used by the dynamic operand,
when its addressing mode uses one (spec §4.4). -/
def Dynamic.register : Dynamic → Option Nat
  | .Register register => some register
  | .MemoryRegister register => some register
  | _ => none

/-- Modelled from the spec: the immediate carried by the dynamic operand,
when its addressing mode carries one (spec §4.4). -/
def Dynamic.immediate : Dynamic → Option number.Data
  | .Constant immediate => some immediate
  | .MemoryConstant immediate => some immediate
  | _ => none

/-- Register indices are 3-bit and immediates fit their tagged width
(spec §3 invariants 4 and 6). -/
def Dynamic.validB : Dynamic → Bool
  | .Register register => decide (register < 8)
  | .MemoryRegister register => decide (register < 8)
  | .Constant immediate => immediate.validB
  | .MemoryConstant immediate => immediate.validB

/-- Modelled from the spec: which operand receives the result (spec §3,
`dynamic_destination`). -/
inductive Destination where
  | Static
  | Dynamic
deriving DecidableEq, Repr

/-- Modelled from the spec: an operand location, static register index or
dynamic operand (spec §3). -/
inductive Operand where
  | Static (register : Nat)
  | Dynamic (dynamic : Dynamic)
deriving DecidableEq, Repr

/-- Modelled from the spec: the operand package of an instruction
(spec §3, `Operands-present`; the `None` package corresponds to absent
instruction data and has no constructor here, matching how instruction.rs
only builds `Data` when a presence exists). -/
inductive Operands where
  | Static (x_static : Nat)
  | Dynamic (x_dynamic : Dynamic)
  | AllPresent (x_static : Nat) (x_dynamic : Dynamic)
deriving DecidableEq, Repr

/-- Modelled from the spec: the static operand of the package, if present
(used by instruction.rs `Instruction::encode` and `destination`). -/
def Operands.x_static : Operands → Option Nat
  | .Static x_static => some x_static
  | .AllPresent x_static _ => some x_static
  | .Dynamic _ => none

/-- Modelled from the spec: the dynamic operand of the package, if present
(used by instruction.rs `Data::new`, `Instruction::encode`, `destination`). -/
def Operands.x_dynamic : Operands → Option operand.Dynamic
  | .Dynamic x_dynamic => some x_dynamic
  | .AllPresent _ x_dynamic => some x_dynamic
  | .Static _ => none

/-- Modelled from the spec: the per-operation operand-presence contract
(spec §3; the `None` case is represented by `Extension.get_presence`
returning `Option.none`, as instruction.rs consumes it). -/
inductive OperandsPresence where
  | Static
  | Dynamic
  | AllPresent
deriving DecidableEq, Repr

/-- Modelled from the spec: failure to construct the operand package; the
stream ended inside the immediate (spec §4.4, short reads fail). -/
inductive OperandsConstructError where
  | Length
deriving DecidableEq, Repr

/-- Modelled from the spec: byte-count of an immediate from the 2-bit
immediate exponent, `2^e` (spec §3; exponents beyond 3 quantize to 8,
matching `number.Data.of_exponent`). -/
def immediate_length (exponent : Nat) : Nat :=
  match exponent with
  | 0 => 1
  | 1 => 2
  | 2 => 4
  | _ => 8

/-- Modelled from the spec: read a little-endian immediate of exactly
`2^immediate_exponent` bytes from the stream, yielding a width-tagged value
of the matching size; short reads fail (spec §4.4, Immediate reading). -/
def read_immediate (stream : List Nat) (exponent : Nat) :
    Option (number.Data × List Nat) :=
  let n := immediate_length exponent
  if stream.length < n then none
  else some (number.Data.of_exponent exponent (leValue (stream.take n)), stream.drop n)

/-- Modelled from the spec: build the dynamic operand from the addressing
mode, the registers byte and (for constant-based modes) the immediate that
follows in the stream (spec §4.4). -/
def Dynamic.parse (stream : List Nat) (registers : Registers) (driver : Driver) :
    Except OperandsConstructError (Dynamic × List Nat) :=
  if driver.addressing = REGISTER_ADDRESSING then
    .ok (.Register registers.x_dynamic, stream)
  else if driver.addressing = MEMORY_REGISTER_ADDRESSING then
    .ok (.MemoryRegister registers.x_dynamic, stream)
  else if driver.addressing = CONSTANT_ADDRESSING then
    match read_immediate stream driver.immediate_exponent with
    | some (immediate, rest) => .ok (.Constant immediate, rest)
    | none => .error .Length
  else
    match read_immediate stream driver.immediate_exponent with
    | some (immediate, rest) => .ok (.MemoryConstant immediate, rest)
    | none => .error .Length

/-- Modelled from the spec: assemble the operand package for the operation's
presence contract; `x_static` is taken directly from the registers byte and
the dynamic operand is built per the addressing mode (spec §4.4). -/
def Operands.new (stream : List Nat) (presence : OperandsPresence)
    (registers : Registers) (driver : Driver) :
    Except OperandsConstructError (Operands × List Nat) :=
  match presence with
  | .Static => .ok (.Static registers.x_static, stream)
  | .Dynamic =>
    match Dynamic.parse stream registers driver with
    | .ok (x_dynamic, rest) => .ok (.Dynamic x_dynamic, rest)
    | .error e => .error e
  | .AllPresent =>
    match Dynamic.parse stream registers driver with
    | .ok (x_dynamic, rest) => .ok (.AllPresent registers.x_static x_dynamic, rest)
    | .error e => .error e

end operand

-- endregion

-- region: operation catalog.
-- The emulator `operation` module is absent from the sources; it is
-- modelled from spec §4.3.

/-- Modelled from the spec: the arithmetic extension's operations; the spec
commits to `Add` and others of the same two-operand shape (spec §4.3). -/
inductive Arithmetic where
  | Add
  | Sub
deriving DecidableEq, Repr

/-- Modelled from the spec: the extension catalog. The spec commits to at
least the `Arithmetic` extension (spec §4.3) and to operations whose
`OperandsPresence` is `None` (spec §4.3 and §8 scenario 3); the latter are
realised here by a one-operation `NoOperands` family. -/
inductive Extension where
  | Arithmetic (operation : Arithmetic)
  | NoOperands
deriving DecidableEq, Repr

/-- Modelled from the spec: the arithmetic extension code; pinned to 0 by
the instruction.rs doc test where `extension = ARITHMETIC_CODE` encodes to
driver byte 0 `0b00000010`. -/
def ARITHMETIC_CODE : Nat := 0

/-- Modelled from the spec: the `Add` operation code; pinned to 0 by the
same doc test (driver byte 1 `0b00001000` has operation bits 0). -/
def ADD_CODE : Nat := 0

/-- Modelled from the spec: a distinct operation code within the family
(spec §4.3: unique 4-bit codes). -/
def SUB_CODE : Nat := 1

/-- Modelled from the spec: a distinct extension code (spec §4.3: unique
6-bit codes). -/
def NO_OPERANDS_CODE : Nat := 1

/-- Modelled from the spec: error for an unassigned extension or operation
code (spec §4.3, lookup failure `InvalidCode`). -/
inductive ExtensionFromCodeInvalid where
  | Extension (code : Nat)
  | Operation (code : Nat)
deriving DecidableEq, Repr

/-- Modelled from the spec: the 6-bit code of an extension (spec §4.3). -/
def Extension.code : Extension → Nat
  | .Arithmetic _ => ARITHMETIC_CODE
  | .NoOperands => NO_OPERANDS_CODE

/-- Modelled from the spec: the 4-bit code of the extension's operation
(spec §4.3; instruction.rs reaches it as `extension.operation().code()`). -/
def Extension.operation_code : Extension → Nat
  | .Arithmetic .Add => ADD_CODE
  | .Arithmetic .Sub => SUB_CODE
  | .NoOperands => 0

/-- Modelled from the spec: closed catalog lookup by
`(extension_code, operation_code)`; either code unassigned is an error
(spec §4.3). -/
def Extension.from_codes (extension operation : Nat) :
    Except ExtensionFromCodeInvalid Extension :=
  if extension = ARITHMETIC_CODE then
    if operation = ADD_CODE then .ok (.Arithmetic .Add)
    else if operation = SUB_CODE then .ok (.Arithmetic .Sub)
    else .error (.Operation operation)
  else if extension = NO_OPERANDS_CODE then
    if operation = 0 then .ok .NoOperands
    else .error (.Operation operation)
  else .error (.Extension extension)

/-- Modelled from the spec: the operation's operand-presence contract
(spec §3 and §4.3; instruction.rs reaches it as
`extension.operation().get_presence()`, `Option.none` meaning the
`None` presence). Arithmetic operations consume both operands. -/
def Extension.get_presence : Extension → Option operand.OperandsPresence
  | .Arithmetic _ => some .AllPresent
  | .NoOperands => none

-- endregion

/-- Result of a Rust function that can also diverge by panicking: `crash`
marks a reached `unwrap` of an empty value. -/
inductive RRes (ε α : Type) where
  | ok (value : α)
  | err (error : ε)
  | crash
deriving DecidableEq, Repr

/-- Whether the computation panicked. -/
def RRes.isCrash {ε α : Type} : RRes ε α → Bool
  | .crash => true
  | _ => false

/-- Operand information of an instruction (instruction.rs lines 475-484,
struct `Data`). -/
structure Data where
  width : number.Size
  destination : operand.Destination
  synchronous : Bool
  operands : operand.Operands
deriving DecidableEq, Repr

/-- Errors of `Data::new` (instruction.rs lines 486-502). `StreamRead`
carries no payload here: a pure byte-list stream has no I/O failure. -/
inductive DataConstructError where
  | StreamRead
  | Length
  | Operands (error : operand.OperandsConstructError)
  | Destination
deriving DecidableEq, Repr

/-- Construct the data field from the stream with the operation's presence
and the driver (instruction.rs lines 537-567, `Data::new`): read the
registers byte (short stream fails `Length`), build the operands, reject a
constant dynamic operand used as dynamic destination with `Destination`,
and unwrap `Size::from_exponent(registers.width)` — a reached unwrap of
`none` is the `crash` outcome. -/
def Data.new (stream : List Nat) (presence : operand.OperandsPresence) (driver : Driver) :
    RRes DataConstructError (Data × List Nat) :=
  match stream with
  | [] => .err .Length
  | encoded :: rest =>
    let registers := Registers.new encoded
    let destination := if driver.dynamic_destination then operand.Destination.Dynamic else operand.Destination.Static
    match operand.Operands.new rest presence registers driver with
    | .error e => .err (.Operands e)
    | .ok (operands, rest2) =>
      match operands.x_dynamic, destination with
      | some (operand.Dynamic.Constant _), operand.Destination.Dynamic => .err .Destination
      | _, _ =>
        match number.Size.from_exponent registers.width with
        | some width => .ok ({ width, destination, synchronous := driver.synchronise, operands }, rest2)
        | none => .crash

/-- An instruction: extension tag plus optional operand data
(instruction.rs lines 570-574). -/
structure Instruction where
  extension : Extension
  data : Option Data
deriving DecidableEq, Repr

/-- Errors of `Instruction::new` (instruction.rs lines 576-586). -/
inductive InstructionConstructError where
  | StreamRead
  | Length
  | InvalidCode (error : ExtensionFromCodeInvalid)
  | Data (error : DataConstructError)
deriving DecidableEq, Repr

/-- Errors of `Instruction::destination` (instruction.rs lines 589-597). -/
inductive DestinationError where
  | Data
  | Static
  | Dynamic
deriving DecidableEq, Repr

/-- Encode driver, optional registers byte and optional immediate into the
variable-length byte sequence; an immediate without a registers byte yields
`none` (instruction.rs lines 603-613,
`Instruction::encode_driver_registers_immediate`). -/
def Instruction.encode_driver_registers_immediate (driver : Driver)
    (registers : Option Registers) (immediate : Option number.Data) :
    Option (List Nat) :=
  let encoded := driver.encode
  match registers with
  | some registers =>
    match immediate with
    | some immediate => some ([encoded.1, encoded.2, registers.encode] ++ immediate.to_le_bytes)
    | none => some [encoded.1, encoded.2, registers.encode]
  | none =>
    match immediate with
    | some _ => none
    | none => some [encoded.1, encoded.2]

/-- Decode an encoded binary stream into a processor instruction
(instruction.rs lines 616-652, `Instruction::new`): read 2 driver bytes
(else `Length`), resolve the codes (else `InvalidCode`), and if the
operation has an operand presence, read the data; otherwise the data is
absent and exactly 2 bytes were consumed. -/
def Instruction.new (stream : List Nat) :
    RRes InstructionConstructError (Instruction × List Nat) :=
  match stream with
  | byte0 :: byte1 :: rest =>
    let driver := Driver.new byte0 byte1
    match Extension.from_codes driver.extension driver.operation with
    | .error e => .err (.InvalidCode e)
    | .ok extension =>
      match extension.get_presence with
      | some presence =>
        match Data.new rest presence driver with
        | .ok (data, rest2) => .ok ({ extension, data := some data }, rest2)
        | .err e => .err (.Data e)
        | .crash => .crash
      | none => .ok ({ extension, data := none }, rest)
  | _ => .err .Length

/-- Encode an instruction into bytes (instruction.rs lines 680-727,
`Instruction::encode`). The source unwraps the result of
`encode_driver_registers_immediate`; the `Option` is kept here, `none`
standing for that unwrap panicking. -/
def Instruction.encode (i : Instruction) : Option (List Nat) :=
  match i.data with
  | none =>
    Instruction.encode_driver_registers_immediate
      { extension := i.extension.code, operation := i.extension.operation_code,
        synchronise := false, dynamic_destination := false,
        addressing := 0, immediate_exponent := 0 }
      none none
  | some data =>
    let synchronise := data.synchronous
    let dynamic_destination := match data.destination with
      | .Dynamic => true
      | .Static => false
    let x_dynamic_code := match data.operands.x_dynamic with
      | some x_dynamic => (x_dynamic.register).getD 0
      | none => 0
    let immediate := match data.operands.x_dynamic with
      | some x_dynamic => x_dynamic.immediate
      | none => none
    let immediate_exponent := match data.operands.x_dynamic with
      | some x_dynamic =>
        match x_dynamic.immediate with
        | some immediate => immediate.exponent
        | none => 0
      | none => 0
    let addressing := match data.operands.x_dynamic with
      | some x_dynamic => x_dynamic.addressing
      | none => 0
    let registers : Registers :=
      { width := data.width.exponent
        x_static := (data.operands.x_static).getD 0
        x_dynamic := x_dynamic_code }
    let driver : Driver :=
      { extension := i.extension.code, operation := i.extension.operation_code,
        synchronise, dynamic_destination, addressing, immediate_exponent }
    match immediate with
    | some immediate =>
      Instruction.encode_driver_registers_immediate driver (some registers) (some immediate)
    | none =>
      Instruction.encode_driver_registers_immediate driver (some registers) none

/-- Get the operand that the destination property corresponds to
(instruction.rs lines 772-788, `Instruction::destination`). -/
def Instruction.destination (i : Instruction) : Except DestinationError operand.Operand :=
  match i.data with
  | none => .error .Data
  | some data =>
    match data.destination with
    | .Static =>
      match data.operands.x_static with
      | some x_static => .ok (.Static x_static)
      | none => .error .Static
    | .Dynamic =>
      match data.operands.x_dynamic with
      | some x_dynamic => .ok (.Dynamic x_dynamic)
      | none => .error .Dynamic

/-- The operand package's bounds: 3-bit register indices and in-width
immediates (spec §3 invariants 4 and 6). -/
def operand.Operands.validB : operand.Operands → Bool
  | .Static x_static => decide (x_static < 8)
  | .Dynamic x_dynamic => x_dynamic.validB
  | .AllPresent x_static x_dynamic => decide (x_static < 8) && x_dynamic.validB

/-- The operand package realises the operation's presence contract
(spec §3, Operands-present). -/
def operand.Operands.matchesB : operand.Operands → operand.OperandsPresence → Bool
  | .Static _, .Static => true
  | .Dynamic _, .Dynamic => true
  | .AllPresent _ _, .AllPresent => true
  | _, _ => false

/-- The structural invariants of spec §3 for a decoded or programmatically
built instruction: data presence matches the catalog's presence contract,
the operand package matches it, register indices are 3-bit, immediates fit
their width, the declared destination operand is present, and a dynamic
destination is never a `Constant` (invariants 1-6). -/
def Instruction.validB (i : Instruction) : Bool :=
  match i.extension.get_presence, i.data with
  | none, none => true
  | some presence, some data =>
    data.operands.matchesB presence &&
    data.operands.validB &&
    (match data.destination with
     | .Static => (data.operands.x_static).isSome
     | .Dynamic =>
       match data.operands.x_dynamic with
       | some (operand.Dynamic.Constant _) => false
       | some _ => true
       | none => false)
  | _, _ => false

/-- Absolute-number size variants of `src/instruction/src/absolute.rs`
(`Type`, renamed as `Type` is a Lean keyword). -/
inductive AbsoluteType where
  | Byte
  | Word
  | Dual
  | Quad
deriving DecidableEq, Repr

/-- Error of the byte-count conversion (absolute.rs lines 42-43,
`RangeError`). -/
inductive RangeError where
  | mk
deriving DecidableEq, Repr

/-- Byte-count constant (absolute.rs line 9). -/
def BYTE : Nat := 1

/-- Byte-count constant (absolute.rs line 10). -/
def WORD : Nat := 2

/-- Byte-count constant (absolute.rs line 11). -/
def DUAL : Nat := 4

/-- Byte-count constant (absolute.rs line 12). -/
def QUAD : Nat := 8

/-- The byte-count to size conversion (absolute.rs lines 45-57,
`TryFrom<NumberBytes> for Type`); defined exactly on {1, 2, 4, 8}. -/
def AbsoluteType.try_from (value : Nat) : Except RangeError AbsoluteType :=
  if value = BYTE then .ok .Byte
  else if value = WORD then .ok .Word
  else if value = DUAL then .ok .Dual
  else if value = QUAD then .ok .Quad
  else .error .mk

/-- A low mask picks the low bits: `(2^w - 1) &&& x = x % 2^w`. -/
theorem and_mask_mod (w x : Nat) : (2 ^ w - 1) &&& x = x % 2 ^ w := by
  rw [Nat.and_comm]
  exact Nat.and_pow_two_sub_one_eq_mod x w

/-- A shifted contiguous mask picks a bit field in place. -/
theorem shifted_mask_and (w lo x : Nat) :
    ((2 ^ w - 1) <<< lo) &&& x = ((x >>> lo) % 2 ^ w) <<< lo := by
  apply Nat.eq_of_testBit_eq
  intro i
  simp only [Nat.testBit_and, Nat.testBit_shiftLeft, Nat.testBit_two_pow_sub_one,
    Nat.testBit_mod_two_pow, Nat.testBit_shiftRight]
  by_cases h : i ≥ lo
  · have h2 : lo + (i - lo) = i := by omega
    rw [h2]
    cases hx : x.testBit i <;> cases hw : (decide (i - lo < w)) <;> simp [h]
  · simp [h]

/-- Arithmetic reading of a shifted contiguous mask. -/
theorem shifted_mask_and_div (w lo x : Nat) :
    ((2 ^ w - 1) <<< lo) &&& x = x / 2 ^ lo % 2 ^ w * 2 ^ lo := by
  rw [shifted_mask_and, Nat.shiftLeft_eq, Nat.shiftRight_eq_div_pow]

/-- Bitwise or of disjoint ranges is addition. -/
theorem or_mul_pow (lo a b : Nat) (h : a < 2 ^ lo) : a ||| b * 2 ^ lo = a + b * 2 ^ lo := by
  rw [Nat.or_comm, Nat.mul_comm b (2 ^ lo), ← Nat.mul_add_lt_is_or h b]
  exact Nat.add_comm _ _

theorem or_mul2 (a b : Nat) (h : a < 2) : a ||| b * 2 = a + b * 2 := by
  have e : (2 : Nat) = 2 ^ 1 := by norm_num
  rw [e]
  exact or_mul_pow 1 a b (e ▸ h)

theorem or_mul4 (a b : Nat) (h : a < 4) : a ||| b * 4 = a + b * 4 := by
  have e : (4 : Nat) = 2 ^ 2 := by norm_num
  rw [e]
  exact or_mul_pow 2 a b (e ▸ h)

theorem or_mul8 (a b : Nat) (h : a < 8) : a ||| b * 8 = a + b * 8 := by
  have e : (8 : Nat) = 2 ^ 3 := by norm_num
  rw [e]
  exact or_mul_pow 3 a b (e ▸ h)

theorem or_mul16 (a b : Nat) (h : a < 16) : a ||| b * 16 = a + b * 16 := by
  have e : (16 : Nat) = 2 ^ 4 := by norm_num
  rw [e]
  exact or_mul_pow 4 a b (e ▸ h)

theorem or_mul64 (a b : Nat) (h : a < 64) : a ||| b * 64 = a + b * 64 := by
  have e : (64 : Nat) = 2 ^ 6 := by norm_num
  rw [e]
  exact or_mul_pow 6 a b (e ▸ h)

theorem extract_extension_eq (x : Nat) : extract_extension x = x / 4 % 64 := by
  rw [extract_extension, show DRIVER0_EXTENSION_MASK = (2 ^ 6 - 1) <<< 2 from rfl,
    shifted_mask_and_div, Nat.shiftRight_eq_div_pow]
  norm_num

theorem extract_operation_eq (x : Nat) : extract_operation x = x / 16 % 16 := by
  rw [extract_operation, show DRIVER1_OPERATION_MASK = (2 ^ 4 - 1) <<< 4 from rfl,
    shifted_mask_and_div, Nat.shiftRight_eq_div_pow]
  norm_num

theorem extract_addressing_eq (x : Nat) : extract_addressing x = x / 4 % 4 := by
  rw [extract_addressing, show DRIVER1_ADDRESSING_MASK = (2 ^ 2 - 1) <<< 2 from rfl,
    shifted_mask_and_div, Nat.shiftRight_eq_div_pow]
  norm_num

theorem extract_immediate_exponent_eq (x : Nat) : extract_immediate_exponent x = x % 4 := by
  rw [extract_immediate_exponent, show DRIVER1_ADDRESSING_PARAMETER_MASK = 2 ^ 2 - 1 from rfl,
    and_mask_mod]
  norm_num

theorem extract_width_eq (x : Nat) : extract_width x = x / 64 % 4 := by
  rw [extract_width, show REGISTERS_WIDTH_MASK = (2 ^ 2 - 1) <<< 6 from rfl,
    shifted_mask_and_div, Nat.shiftRight_eq_div_pow]
  norm_num

theorem extract_static_eq (x : Nat) : extract_static x = x / 8 % 8 := by
  rw [extract_static, show REGISTERS_STATIC_OPERAND_MASK = (2 ^ 3 - 1) <<< 3 from rfl,
    shifted_mask_and_div, Nat.shiftRight_eq_div_pow]
  norm_num

theorem extract_dynamic_eq (x : Nat) : extract_dynamic x = x % 8 := by
  rw [extract_dynamic, show REGISTERS_DYNAMIC_OPERAND_MASK = 2 ^ 3 - 1 from rfl,
    and_mask_mod]
  norm_num

theorem extract_synchronise_eq (x : Nat) : extract_synchronise x = (x / 2 % 2 == 1) := by
  rw [extract_synchronise, show DRIVER0_SYNCHRONISE_MASK = (2 ^ 1 - 1) <<< 1 from rfl,
    shifted_mask_and_div, Nat.shiftRight_eq_div_pow]
  norm_num

theorem extract_dynamic_destination_eq (x : Nat) :
    extract_dynamic_destination x = (x % 2 == 1) := by
  rw [extract_dynamic_destination, show DRIVER0_DYNAMIC_DESTINATION = 2 ^ 1 - 1 from rfl,
    and_mask_mod]
  norm_num

theorem and_compl_extension (x : Nat) : (255 ^^^ DRIVER0_EXTENSION_MASK) &&& x = x % 4 := by
  rw [show (255 ^^^ DRIVER0_EXTENSION_MASK) = 2 ^ 2 - 1 from rfl, and_mask_mod]
  norm_num

theorem and_compl_synchronise (x : Nat) :
    (255 ^^^ DRIVER0_SYNCHRONISE_MASK) &&& x = x % 2 + x / 4 % 64 * 4 := by
  rw [show (255 ^^^ DRIVER0_SYNCHRONISE_MASK) = (2 ^ 1 - 1) ||| ((2 ^ 6 - 1) <<< 2) from rfl,
    Nat.and_distrib_right, and_mask_mod, shifted_mask_and_div]
  norm_num
  rw [or_mul4 (x % 2) (x / 4 % 64) (by omega)]

theorem and_compl_dynamic_destination (x : Nat) :
    (255 ^^^ DRIVER0_DYNAMIC_DESTINATION) &&& x = x / 2 % 128 * 2 := by
  rw [show (255 ^^^ DRIVER0_DYNAMIC_DESTINATION) = (2 ^ 7 - 1) <<< 1 from rfl,
    shifted_mask_and_div]
  norm_num

theorem and_compl_operation (x : Nat) : (255 ^^^ DRIVER1_OPERATION_MASK) &&& x = x % 16 := by
  rw [show (255 ^^^ DRIVER1_OPERATION_MASK) = 2 ^ 4 - 1 from rfl, and_mask_mod]
  norm_num

theorem and_compl_addressing (x : Nat) :
    (255 ^^^ DRIVER1_ADDRESSING_MASK) &&& x = x % 4 + x / 16 % 16 * 16 := by
  rw [show (255 ^^^ DRIVER1_ADDRESSING_MASK) = (2 ^ 2 - 1) ||| ((2 ^ 4 - 1) <<< 4) from rfl,
    Nat.and_distrib_right, and_mask_mod, shifted_mask_and_div]
  norm_num
  rw [or_mul16 (x % 4) (x / 16 % 16) (by omega)]

theorem and_compl_immediate_exponent (x : Nat) :
    (255 ^^^ DRIVER1_ADDRESSING_PARAMETER_MASK) &&& x = x / 4 % 64 * 4 := by
  rw [show (255 ^^^ DRIVER1_ADDRESSING_PARAMETER_MASK) = (2 ^ 6 - 1) <<< 2 from rfl,
    shifted_mask_and_div]
  norm_num

theorem and_compl_width (x : Nat) : (255 ^^^ REGISTERS_WIDTH_MASK) &&& x = x % 64 := by
  rw [show (255 ^^^ REGISTERS_WIDTH_MASK) = 2 ^ 6 - 1 from rfl, and_mask_mod]
  norm_num

theorem and_compl_static (x : Nat) :
    (255 ^^^ REGISTERS_STATIC_OPERAND_MASK) &&& x = x % 8 + x / 64 % 4 * 64 := by
  rw [show (255 ^^^ REGISTERS_STATIC_OPERAND_MASK) = (2 ^ 3 - 1) ||| ((2 ^ 2 - 1) <<< 6) from rfl,
    Nat.and_distrib_right, and_mask_mod, shifted_mask_and_div]
  norm_num
  rw [or_mul64 (x % 8) (x / 64 % 4) (by omega)]

theorem and_compl_dynamic (x : Nat) :
    (255 ^^^ REGISTERS_DYNAMIC_OPERAND_MASK) &&& x = x / 8 % 32 * 8 := by
  rw [show (255 ^^^ REGISTERS_DYNAMIC_OPERAND_MASK) = (2 ^ 5 - 1) <<< 3 from rfl,
    shifted_mask_and_div]
  norm_num

theorem or_mul_pow_distrib (p q n : Nat) : (p ||| q) * 2 ^ n = p * 2 ^ n ||| q * 2 ^ n := by
  rw [← Nat.shiftLeft_eq, ← Nat.shiftLeft_eq, ← Nat.shiftLeft_eq]
  apply Nat.eq_of_testBit_eq
  intro i
  by_cases h : i ≥ n <;> simp [h]

/-- Insert a field between the low and high parts of a byte. -/
theorem or_insert (P Q a m h l1 k : Nat) (hP : P = 2 ^ l1) (hQ : Q = 2 ^ k)
    (ha : a < P) (hm : m < Q) :
    (a + h * (P * Q)) ||| m * P = a + m * P + h * (P * Q) := by
  subst hP hQ
  have h1 : a + h * (2 ^ l1 * 2 ^ k) = a ||| h * 2 ^ k * 2 ^ l1 := by
    rw [or_mul_pow l1 a (h * 2 ^ k) ha]
    ring
  rw [h1, Nat.or_assoc]
  have h2 : h * 2 ^ k * 2 ^ l1 ||| m * 2 ^ l1 = (m + h * 2 ^ k) * 2 ^ l1 := by
    rw [← or_mul_pow_distrib, Nat.or_comm, or_mul_pow k m h hm]
  rw [h2, or_mul_pow l1 a (m + h * 2 ^ k) ha]
  ring

theorem set_extension_eq (x v : Nat) : set_extension x v = x % 4 + v % 64 * 4 := by
  rw [set_extension, and_compl_extension, show (0b00111111 : Nat) = 2 ^ 6 - 1 from rfl,
    and_mask_mod, Nat.shiftLeft_eq]
  norm_num
  rw [or_mul4 (x % 4) (v % 64) (by omega)]

theorem set_synchronise_eq (x : Nat) (b : Bool) :
    set_synchronise x b = x % 2 + (if b then 1 else 0) * 2 + x / 4 % 64 * 4 := by
  rw [set_synchronise, and_compl_synchronise, Nat.shiftLeft_eq,
    show x % 2 + x / 4 % 64 * 4 = x % 2 + x / 4 % 64 * (2 * 2) from by ring,
    show (2 : Nat) ^ 1 = 2 from rfl,
    or_insert 2 2 (x % 2) (if b then 1 else 0) (x / 4 % 64) 1 1 rfl rfl (by omega)
      (by cases b <;> simp)]

theorem set_dynamic_destination_eq (x : Nat) (b : Bool) :
    set_dynamic_destination x b = (if b then 1 else 0) + x / 2 % 128 * 2 := by
  rw [set_dynamic_destination, and_compl_dynamic_destination, Nat.or_comm,
    or_mul2 (if b then 1 else 0) (x / 2 % 128) (by cases b <;> simp)]

theorem set_operation_eq (x v : Nat) : set_operation x v = x % 16 + v % 16 * 16 := by
  rw [set_operation, and_compl_operation, show (0b00001111 : Nat) = 2 ^ 4 - 1 from rfl,
    and_mask_mod, Nat.shiftLeft_eq]
  norm_num
  rw [or_mul16 (x % 16) (v % 16) (by omega)]

theorem set_addressing_eq (x v : Nat) :
    set_addressing x v = x % 4 + v % 4 * 4 + x / 16 % 16 * 16 := by
  rw [set_addressing, and_compl_addressing, show (0b00000011 : Nat) = 2 ^ 2 - 1 from rfl,
    and_mask_mod, Nat.shiftLeft_eq]
  norm_num
  rw [show x % 4 + x / 16 % 16 * 16 = x % 4 + x / 16 % 16 * (4 * 4) from by ring,
    or_insert 4 4 (x % 4) (v % 4) (x / 16 % 16) 2 2 rfl rfl (by omega) (by omega)]

theorem set_immediate_exponent_eq (x v : Nat) :
    set_immediate_exponent x v = v % 4 + x / 4 % 64 * 4 := by
  rw [set_immediate_exponent, and_compl_immediate_exponent,
    show (0b00000011 : Nat) = 2 ^ 2 - 1 from rfl, and_mask_mod, Nat.or_comm]
  norm_num
  rw [or_mul4 (v % 4) (x / 4 % 64) (by omega)]

theorem set_width_eq (x v : Nat) : set_width x v = x % 64 + v % 4 * 64 := by
  rw [set_width, and_compl_width, show (0b00000011 : Nat) = 2 ^ 2 - 1 from rfl,
    and_mask_mod, Nat.shiftLeft_eq]
  norm_num
  rw [or_mul64 (x % 64) (v % 4) (by omega)]

theorem set_static_eq (x v : Nat) :
    set_static x v = x % 8 + v % 8 * 8 + x / 64 % 4 * 64 := by
  rw [set_static, and_compl_static, show (0b00000111 : Nat) = 2 ^ 3 - 1 from rfl,
    and_mask_mod, Nat.shiftLeft_eq]
  norm_num
  rw [show x % 8 + x / 64 % 4 * 64 = x % 8 + x / 64 % 4 * (8 * 8) from by ring,
    or_insert 8 8 (x % 8) (v % 8) (x / 64 % 4) 3 3 rfl rfl (by omega) (by omega)]

theorem set_dynamic_eq (x v : Nat) : set_dynamic x v = v % 8 + x / 8 % 32 * 8 := by
  rw [set_dynamic, and_compl_dynamic, show (0b00000111 : Nat) = 2 ^ 3 - 1 from rfl,
    and_mask_mod, Nat.or_comm]
  norm_num
  rw [or_mul8 (v % 8) (x / 8 % 32) (by omega)]

theorem set_synchronise_true (x : Nat) :
    set_synchronise x true = x % 2 + 2 + x / 4 % 64 * 4 := by
  rw [set_synchronise_eq]
  norm_num

theorem set_synchronise_false (x : Nat) :
    set_synchronise x false = x % 2 + x / 4 % 64 * 4 := by
  rw [set_synchronise_eq]
  simp

theorem set_dynamic_destination_true (x : Nat) :
    set_dynamic_destination x true = 1 + x / 2 % 128 * 2 := by
  rw [set_dynamic_destination_eq]
  norm_num

theorem set_dynamic_destination_false (x : Nat) :
    set_dynamic_destination x false = x / 2 % 128 * 2 := by
  rw [set_dynamic_destination_eq]
  simp

/-- Decoding the two encoded driver bytes recovers every in-range driver. -/
theorem driver_decode_encode (e o a ie : Nat) (s d : Bool)
    (he : e < 64) (ho : o < 16) (ha : a < 4) (hie : ie < 4) :
    Driver.new (Driver.encode ⟨e, o, s, d, a, ie⟩).1 (Driver.encode ⟨e, o, s, d, a, ie⟩).2 =
      ⟨e, o, s, d, a, ie⟩ := by
  cases s <;> cases d <;>
    simp only [Driver.new, Driver.encode, set_extension_eq, set_synchronise_true,
      set_synchronise_false, set_dynamic_destination_true, set_dynamic_destination_false,
      set_operation_eq, set_addressing_eq,
      set_immediate_exponent_eq, extract_extension_eq, extract_operation_eq,
      extract_synchronise_eq, extract_dynamic_destination_eq, extract_addressing_eq,
      extract_immediate_exponent_eq, Driver.mk.injEq,
      beq_iff_eq, beq_eq_false_iff_ne] <;>
    refine ⟨by omega, by omega, by omega, by omega, by omega, by omega⟩

/-- Re-encoding a decoded driver byte pair recovers both bytes. -/
theorem driver_encode_decode (b0 b1 : Nat) (h0 : b0 < 256) (h1 : b1 < 256) :
    Driver.encode (Driver.new b0 b1) = (b0, b1) := by
  simp only [Driver.new, Driver.encode, set_extension_eq,
    set_operation_eq, set_addressing_eq, set_immediate_exponent_eq,
    extract_extension_eq, extract_operation_eq,
    extract_synchronise_eq, extract_dynamic_destination_eq, extract_addressing_eq,
    extract_immediate_exponent_eq, Prod.mk.injEq]
  have hs2 : b0 / 2 % 2 = 0 ∨ b0 / 2 % 2 = 1 := by omega
  have hd2 : b0 % 2 = 0 ∨ b0 % 2 = 1 := by omega
  rcases hs2 with hs | hs <;> rcases hd2 with hd | hd <;>
    rw [hs, hd] <;>
    simp only [show ((0 : Nat) == 1) = false from rfl, show ((1 : Nat) == 1) = true from rfl,
      set_synchronise_true, set_synchronise_false, set_dynamic_destination_true,
      set_dynamic_destination_false] <;>
    constructor <;> omega

/-- Decoding the encoded registers byte recovers every in-range structure. -/
theorem registers_decode_encode (w s d : Nat) (hw : w < 4) (hs : s < 8) (hd : d < 8) :
    Registers.new (Registers.encode ⟨w, s, d⟩) = ⟨w, s, d⟩ := by
  simp only [Registers.new, Registers.encode, set_width_eq, set_static_eq, set_dynamic_eq,
    extract_width_eq, extract_static_eq, extract_dynamic_eq, Registers.mk.injEq]
  refine ⟨by omega, by omega, by omega⟩

/-- Re-encoding a decoded registers byte recovers the byte. -/
theorem registers_encode_decode (b : Nat) (h : b < 256) :
    Registers.encode (Registers.new b) = b := by
  simp only [Registers.new, Registers.encode, set_width_eq, set_static_eq, set_dynamic_eq,
    extract_width_eq, extract_static_eq, extract_dynamic_eq]
  omega

theorem leBytes_length (n v : Nat) : (leBytes n v).length = n := by
  induction n generalizing v with
  | zero => rfl
  | succ n ih => simp [leBytes, ih]

theorem leValue_leBytes (n v : Nat) (h : v < 256 ^ n) : leValue (leBytes n v) = v := by
  induction n generalizing v with
  | zero =>
    simp only [Nat.pow_zero] at h
    simp [leBytes, leValue]
    omega
  | succ n ih =>
    have hdiv : v / 256 < 256 ^ n := by
      rw [Nat.div_lt_iff_lt_mul (by norm_num)]
      calc v < 256 ^ (n + 1) := h
        _ = 256 ^ n * 256 := by rw [Nat.pow_succ]
    simp only [leBytes, leValue, ih (v / 256) hdiv]
    omega

theorem take_leBytes (n v : Nat) : (leBytes n v).take n = leBytes n v :=
  List.take_of_length_le (by simp [leBytes_length])

theorem drop_leBytes (n v : Nat) : (leBytes n v).drop n = [] :=
  List.drop_eq_nil_of_le (by simp [leBytes_length])

theorem size_from_exponent_exponent (w : number.Size) :
    number.Size.from_exponent w.exponent = some w := by
  cases w <;> rfl

theorem size_exponent_lt (w : number.Size) : w.exponent < 4 := by
  cases w <;> simp [number.Size.exponent]

theorem data_exponent_lt (im : number.Data) : im.exponent < 4 := by
  cases im <;> simp [number.Data.exponent]

theorem dynamic_addressing_lt (dy : operand.Dynamic) : dy.addressing < 4 := by
  cases dy <;> simp [operand.Dynamic.addressing, operand.REGISTER_ADDRESSING,
    operand.MEMORY_REGISTER_ADDRESSING, operand.CONSTANT_ADDRESSING,
    operand.MEMORY_CONSTANT_ADDRESSING]

/-- Reading back the serialized immediate yields the value and consumes all
its bytes. -/
theorem read_immediate_to_le_bytes (im : number.Data) (h : im.validB = true) :
    operand.read_immediate im.to_le_bytes im.exponent = some (im, []) := by
  cases im <;>
    simp only [number.Data.validB, decide_eq_true_eq] at h <;>
    simp only [operand.read_immediate, number.Data.to_le_bytes, number.Data.exponent,
      operand.immediate_length, leBytes_length, take_leBytes, drop_leBytes,
      number.Data.of_exponent] <;>
    rw [if_neg (by simp [leBytes_length])] <;>
    rw [leValue_leBytes _ _ (by norm_num at h ⊢; omega)]

theorem extension_code_lt (ext : Extension) : ext.code < 64 := by
  cases ext <;> simp [Extension.code, ARITHMETIC_CODE, NO_OPERANDS_CODE]

theorem operation_code_lt (ext : Extension) : ext.operation_code < 16 := by
  cases ext with
  | Arithmetic op => cases op <;> simp [Extension.operation_code, ADD_CODE, SUB_CODE]
  | NoOperands => simp [Extension.operation_code]

theorem from_codes_code (ext : Extension) :
    Extension.from_codes ext.code ext.operation_code = .ok ext := by
  cases ext with
  | Arithmetic op => cases op <;> rfl
  | NoOperands => rfl

/-- C1: For every `Instruction` satisfying the structural invariants of
spec §3 (captured by `Instruction.validB`: data presence matches the
operation's presence contract, a dynamic destination is never a `Constant`,
the destination operand is present, register indices are in 0..7 and the
immediate fits its tagged width, the width being a `Size` whose exponent
is in 0..3 by construction), decoding the byte sequence produced by
`Instruction.encode` succeeds and yields an `Instruction` equal to the
original, consuming the whole sequence. -/
theorem instruction_decode_encode (i : Instruction) (h : i.validB = true) :
    ∃ bs, i.encode = some bs ∧ Instruction.new bs = .ok (i, []) := by
  obtain ⟨ext, data⟩ := i
  cases data with
  | none =>
    cases ext with
    | Arithmetic op => simp [Instruction.validB, Extension.get_presence] at h
    | NoOperands => exact ⟨[4, 0], by decide⟩
  | some d =>
    obtain ⟨width, dest, syn, ops⟩ := d
    cases ext with
    | NoOperands => simp [Instruction.validB, Extension.get_presence] at h
    | Arithmetic op =>
      cases ops with
      | Static s =>
        simp [Instruction.validB, Extension.get_presence, operand.Operands.matchesB] at h
      | Dynamic dy =>
        simp [Instruction.validB, Extension.get_presence, operand.Operands.matchesB] at h
      | AllPresent s dy =>
        cases dy <;> cases dest <;>
          first
          | (exfalso
             simp [Instruction.validB, Extension.get_presence, operand.Operands.matchesB,
               operand.Operands.validB, operand.Dynamic.validB, operand.Operands.x_dynamic,
               operand.Operands.x_static] at h
             done)
          | (simp only [Instruction.validB, Extension.get_presence, operand.Operands.matchesB,
               operand.Operands.validB, operand.Dynamic.validB, operand.Operands.x_dynamic,
               operand.Operands.x_static, Option.isSome, Bool.and_eq_true, decide_eq_true_eq,
               Bool.true_and, Bool.and_true, and_true, true_and] at h
             obtain ⟨hs2, hv⟩ := h
             simp only [Instruction.encode, operand.Operands.x_dynamic,
               operand.Operands.x_static, operand.Dynamic.register, operand.Dynamic.immediate,
               operand.Dynamic.addressing, Option.getD,
               Instruction.encode_driver_registers_immediate]
             refine ⟨_, rfl, ?_⟩
             simp only [List.cons_append, List.nil_append, Instruction.new]
             rw [driver_decode_encode _ _ _ _ _ _ (extension_code_lt _) (operation_code_lt _)
               (by decide) (by first | decide | exact data_exponent_lt _)]
             rw [from_codes_code]
             simp only [Extension.get_presence, Data.new]
             rw [registers_decode_encode _ _ _ (size_exponent_lt width) hs2
               (by first | exact hv | decide)]
             simp only [operand.Operands.new, operand.Dynamic.parse,
               operand.REGISTER_ADDRESSING, operand.MEMORY_REGISTER_ADDRESSING,
               operand.CONSTANT_ADDRESSING, operand.MEMORY_CONSTANT_ADDRESSING]
             try rw [read_immediate_to_le_bytes _ (by exact hv)]
             rw [size_from_exponent_exponent]
             simp [operand.Operands.x_dynamic])

/-- Witness for C1 at a concrete valid instruction. -/
theorem instruction_decode_encode_witness :
    ({ extension := Extension.Arithmetic Arithmetic.Add,
       data := some { width := .Byte, destination := .Static, synchronous := true,
                      operands := .AllPresent 1 (.Constant (number.Data.Byte 10)) } } :
      Instruction).validB = true ∧
    ∃ bs,
      Instruction.encode
        { extension := Extension.Arithmetic Arithmetic.Add,
          data := some { width := .Byte, destination := .Static, synchronous := true,
                         operands := .AllPresent 1 (.Constant (number.Data.Byte 10)) } } =
        some bs ∧
      Instruction.new bs =
        .ok ({ extension := Extension.Arithmetic Arithmetic.Add,
               data := some { width := .Byte, destination := .Static, synchronous := true,
                              operands := .AllPresent 1 (.Constant (number.Data.Byte 10)) } },
          []) :=
  ⟨by decide, instruction_decode_encode _ (by decide)⟩

/-- C2 fails as stated: this concrete stream satisfies every hypothesis of
the claim (driver with `dynamic_destination = 1`, addressing `Constant`,
presence including the dynamic operand) yet decode fails with `Length`
(the empty stream has no registers byte), not with `Destination`. -/
theorem destination_error_counterexample :
    ({ extension := 0, operation := 0, synchronise := false, dynamic_destination := true,
       addressing := operand.CONSTANT_ADDRESSING, immediate_exponent := 0 } :
        Driver).dynamic_destination = true ∧
    Data.new [] operand.OperandsPresence.AllPresent
      { extension := 0, operation := 0, synchronise := false, dynamic_destination := true,
        addressing := operand.CONSTANT_ADDRESSING, immediate_exponent := 0 } =
      .err .Length ∧
    (RRes.err DataConstructError.Length : RRes DataConstructError (Data × List Nat)) ≠
      .err .Destination := by
  refine ⟨rfl, rfl, ?_⟩
  decide

/-- C2 (amended): for a driver with `dynamic_destination = 1` and
`Constant` addressing and a presence including the dynamic operand, decode
never returns an instruction; and whenever the stream holds the registers
byte and the whole immediate, it fails with exactly `Destination`. -/
theorem dynamic_constant_destination_rejected (driver : Driver)
    (presence : operand.OperandsPresence) (stream : List Nat)
    (h1 : driver.dynamic_destination = true)
    (h2 : driver.addressing = operand.CONSTANT_ADDRESSING)
    (h3 : presence ≠ operand.OperandsPresence.Static) :
    (∀ result, Data.new stream presence driver ≠ .ok result) ∧
    (1 + operand.immediate_length driver.immediate_exponent ≤ stream.length →
      Data.new stream presence driver = .err .Destination) := by
  cases stream with
  | nil =>
    refine ⟨fun result => by simp [Data.new], fun hlen => ?_⟩
    simp at hlen
  | cons b rest =>
    have hif : (if driver.dynamic_destination then operand.Destination.Dynamic
        else operand.Destination.Static) = operand.Destination.Dynamic := by
      rw [h1]
      rfl
    cases presence with
    | Static => exact absurd rfl h3
    | Dynamic =>
      simp only [Data.new, operand.Operands.new, operand.Dynamic.parse, h2, hif,
        operand.CONSTANT_ADDRESSING, operand.REGISTER_ADDRESSING,
        operand.MEMORY_REGISTER_ADDRESSING, operand.read_immediate]
      by_cases hr : rest.length < operand.immediate_length driver.immediate_exponent
      · simp only [hr, if_true, if_pos hr]
        exact ⟨fun result => by simp, fun hlen => by simp at hlen; omega⟩
      · simp only [if_neg hr]
        exact ⟨fun result => by simp [operand.Operands.x_dynamic], fun hlen => by
          simp [operand.Operands.x_dynamic]⟩
    | AllPresent =>
      simp only [Data.new, operand.Operands.new, operand.Dynamic.parse, h2, hif,
        operand.CONSTANT_ADDRESSING, operand.REGISTER_ADDRESSING,
        operand.MEMORY_REGISTER_ADDRESSING, operand.read_immediate]
      by_cases hr : rest.length < operand.immediate_length driver.immediate_exponent
      · simp only [hr, if_true, if_pos hr]
        exact ⟨fun result => by simp, fun hlen => by simp at hlen; omega⟩
      · simp only [if_neg hr]
        exact ⟨fun result => by simp [operand.Operands.x_dynamic], fun hlen => by
          simp [operand.Operands.x_dynamic]⟩

/-- Witness for the amended C2 at a concrete stream long enough to hold the
registers byte and the 1-byte immediate. -/
theorem dynamic_constant_destination_rejected_witness :
    Data.new [0, 10] operand.OperandsPresence.AllPresent
      { extension := 0, operation := 0, synchronise := false, dynamic_destination := true,
        addressing := operand.CONSTANT_ADDRESSING, immediate_exponent := 0 } =
      .err .Destination :=
  (dynamic_constant_destination_rejected
    { extension := 0, operation := 0, synchronise := false, dynamic_destination := true,
      addressing := operand.CONSTANT_ADDRESSING, immediate_exponent := 0 }
    operand.OperandsPresence.AllPresent [0, 10] rfl rfl (by decide)).2 (by decide)

/-- C3: a stream whose first two bytes resolve to an operation whose
`OperandsPresence` is `None` (`get_presence = none`) decodes to an
`Instruction` with absent data, consuming exactly the 2 driver bytes: the
returned remainder is the stream beyond them, untouched. -/
theorem no_operand_decode (byte0 byte1 : Nat) (rest : List Nat) (ext : Extension)
    (hc : Extension.from_codes (extract_extension byte0) (extract_operation byte1) = .ok ext)
    (hp : ext.get_presence = none) :
    Instruction.new (byte0 :: byte1 :: rest) = .ok ({ extension := ext, data := none }, rest) := by
  simp only [Instruction.new, Driver.new]
  rw [hc]
  simp only [hp]

/-- Witness for C3: extension code 1, operation code 0 is the no-operand
operation; one trailing byte is left unread. -/
theorem no_operand_decode_witness :
    Instruction.new [4, 0, 99] =
      .ok ({ extension := Extension.NoOperands, data := none }, [99]) :=
  no_operand_decode 4 0 [99] Extension.NoOperands rfl rfl

/-- C4: `Driver` and `Registers` coding are mutually inverse bijections:
decode-of-encode is the identity on every driver whose fields are within
their encoded widths and on every registers structure with 2-bit width and
3-bit indices, and encode-of-decode is the identity on every byte (pattern);
decode itself is a total function, so no input byte pattern can make it
panic. -/
theorem driver_registers_codec_bijection :
    (∀ e < 64, ∀ o < 16, ∀ a < 4, ∀ ie < 4, ∀ s d : Bool,
      Driver.new (Driver.encode ⟨e, o, s, d, a, ie⟩).1 (Driver.encode ⟨e, o, s, d, a, ie⟩).2 =
        ⟨e, o, s, d, a, ie⟩) ∧
    (∀ b0 < 256, ∀ b1 < 256, Driver.encode (Driver.new b0 b1) = (b0, b1)) ∧
    (∀ w < 4, ∀ s < 8, ∀ d < 8,
      Registers.new (Registers.encode ⟨w, s, d⟩) = ⟨w, s, d⟩) ∧
    (∀ b < 256, Registers.encode (Registers.new b) = b) := by
  refine ⟨?_, ?_, ?_, ?_⟩
  · intro e he o ho a ha ie hie s d
    exact driver_decode_encode e o a ie s d he ho ha hie
  · intro b0 h0 b1 h1
    exact driver_encode_decode b0 b1 h0 h1
  · intro w hw s hs d hd
    exact registers_decode_encode w s d hw hs hd
  · intro b hb
    exact registers_encode_decode b hb

/-- Witness for C4 at concrete values on all four components. -/
theorem driver_registers_codec_bijection_witness :
    Driver.new (Driver.encode ⟨5, 3, true, false, 2, 1⟩).1
        (Driver.encode ⟨5, 3, true, false, 2, 1⟩).2 = ⟨5, 3, true, false, 2, 1⟩ ∧
    Driver.encode (Driver.new 202 151) = (202, 151) ∧
    Registers.new (Registers.encode ⟨2, 0, 1⟩) = ⟨2, 0, 1⟩ ∧
    Registers.encode (Registers.new 202) = 202 :=
  ⟨driver_registers_codec_bijection.1 5 (by decide) 3 (by decide) 2 (by decide) 1 (by decide)
      true false,
    driver_registers_codec_bijection.2.1 202 (by decide) 151 (by decide),
    driver_registers_codec_bijection.2.2.1 2 (by decide) 0 (by decide) 1 (by decide),
    driver_registers_codec_bijection.2.2.2 202 (by decide)⟩

/-- C5: on every byte, each of the nine bitfield accessor pairs truncates
its input to the field width (`extract_X (set_X u v) = v & field_mask`) and
`set_X` preserves every bit of `u` outside the field (its conjunction with
the complement mask is unchanged). -/
theorem bitfield_accessor_pairs (u : Nat) (_hu : u < 256) :
    (∀ v < 256,
      (extract_extension (set_extension u v) = 0b00111111 &&& v ∧
        (255 ^^^ DRIVER0_EXTENSION_MASK) &&& set_extension u v =
          (255 ^^^ DRIVER0_EXTENSION_MASK) &&& u) ∧
      (extract_operation (set_operation u v) = 0b00001111 &&& v ∧
        (255 ^^^ DRIVER1_OPERATION_MASK) &&& set_operation u v =
          (255 ^^^ DRIVER1_OPERATION_MASK) &&& u) ∧
      (extract_addressing (set_addressing u v) = 0b00000011 &&& v ∧
        (255 ^^^ DRIVER1_ADDRESSING_MASK) &&& set_addressing u v =
          (255 ^^^ DRIVER1_ADDRESSING_MASK) &&& u) ∧
      (extract_immediate_exponent (set_immediate_exponent u v) = 0b00000011 &&& v ∧
        (255 ^^^ DRIVER1_ADDRESSING_PARAMETER_MASK) &&& set_immediate_exponent u v =
          (255 ^^^ DRIVER1_ADDRESSING_PARAMETER_MASK) &&& u) ∧
      (extract_width (set_width u v) = 0b00000011 &&& v ∧
        (255 ^^^ REGISTERS_WIDTH_MASK) &&& set_width u v =
          (255 ^^^ REGISTERS_WIDTH_MASK) &&& u) ∧
      (extract_static (set_static u v) = 0b00000111 &&& v ∧
        (255 ^^^ REGISTERS_STATIC_OPERAND_MASK) &&& set_static u v =
          (255 ^^^ REGISTERS_STATIC_OPERAND_MASK) &&& u) ∧
      (extract_dynamic (set_dynamic u v) = 0b00000111 &&& v ∧
        (255 ^^^ REGISTERS_DYNAMIC_OPERAND_MASK) &&& set_dynamic u v =
          (255 ^^^ REGISTERS_DYNAMIC_OPERAND_MASK) &&& u)) ∧
    (∀ b : Bool,
      (extract_synchronise (set_synchronise u b) = b ∧
        (255 ^^^ DRIVER0_SYNCHRONISE_MASK) &&& set_synchronise u b =
          (255 ^^^ DRIVER0_SYNCHRONISE_MASK) &&& u) ∧
      (extract_dynamic_destination (set_dynamic_destination u b) = b ∧
        (255 ^^^ DRIVER0_DYNAMIC_DESTINATION) &&& set_dynamic_destination u b =
          (255 ^^^ DRIVER0_DYNAMIC_DESTINATION) &&& u)) := by
  have m6 : (0b00111111 : Nat) = 2 ^ 6 - 1 := rfl
  have m4 : (0b00001111 : Nat) = 2 ^ 4 - 1 := rfl
  have m2 : (0b00000011 : Nat) = 2 ^ 2 - 1 := rfl
  have m3 : (0b00000111 : Nat) = 2 ^ 3 - 1 := rfl
  constructor
  · intro v hv
    refine ⟨⟨?_, ?_⟩, ⟨?_, ?_⟩, ⟨?_, ?_⟩, ⟨?_, ?_⟩, ⟨?_, ?_⟩, ⟨?_, ?_⟩, ?_, ?_⟩
    · rw [extract_extension_eq, set_extension_eq, m6, and_mask_mod]
      omega
    · rw [and_compl_extension, and_compl_extension, set_extension_eq]
      omega
    · rw [extract_operation_eq, set_operation_eq, m4, and_mask_mod]
      omega
    · rw [and_compl_operation, and_compl_operation, set_operation_eq]
      omega
    · rw [extract_addressing_eq, set_addressing_eq, m2, and_mask_mod]
      omega
    · rw [and_compl_addressing, and_compl_addressing, set_addressing_eq]
      omega
    · rw [extract_immediate_exponent_eq, set_immediate_exponent_eq, m2, and_mask_mod]
      omega
    · rw [and_compl_immediate_exponent, and_compl_immediate_exponent,
        set_immediate_exponent_eq]
      omega
    · rw [extract_width_eq, set_width_eq, m2, and_mask_mod]
      omega
    · rw [and_compl_width, and_compl_width, set_width_eq]
      omega
    · rw [extract_static_eq, set_static_eq, m3, and_mask_mod]
      omega
    · rw [and_compl_static, and_compl_static, set_static_eq]
      omega
    · rw [extract_dynamic_eq, set_dynamic_eq, m3, and_mask_mod]
      omega
    · rw [and_compl_dynamic, and_compl_dynamic, set_dynamic_eq]
      omega
  · intro b
    cases b
    · refine ⟨⟨?_, ?_⟩, ?_, ?_⟩
      · rw [extract_synchronise_eq, set_synchronise_false]
        simp only [beq_eq_false_iff_ne, ne_eq]
        omega
      · rw [and_compl_synchronise, and_compl_synchronise, set_synchronise_false]
        omega
      · rw [extract_dynamic_destination_eq, set_dynamic_destination_false]
        simp only [beq_eq_false_iff_ne, ne_eq]
        omega
      · rw [and_compl_dynamic_destination, and_compl_dynamic_destination,
          set_dynamic_destination_false]
        omega
    · refine ⟨⟨?_, ?_⟩, ?_, ?_⟩
      · rw [extract_synchronise_eq, set_synchronise_true]
        simp only [beq_iff_eq]
        omega
      · rw [and_compl_synchronise, and_compl_synchronise, set_synchronise_true]
        omega
      · rw [extract_dynamic_destination_eq, set_dynamic_destination_true]
        simp only [beq_iff_eq]
        omega
      · rw [and_compl_dynamic_destination, and_compl_dynamic_destination,
          set_dynamic_destination_true]
        omega

/-- Witness for C5 at a concrete byte and value. -/
theorem bitfield_accessor_pairs_witness :
    (extract_extension (set_extension 170 250) = 0b00111111 &&& 250 ∧
      (255 ^^^ DRIVER0_EXTENSION_MASK) &&& set_extension 170 250 =
        (255 ^^^ DRIVER0_EXTENSION_MASK) &&& 170) ∧
    extract_synchronise (set_synchronise 170 true) = true :=
  ⟨((bitfield_accessor_pairs 170 (by decide)).1 250 (by decide)).1,
    (((bitfield_accessor_pairs 170 (by decide)).2 true).1).1⟩

theorem from_exponent_isSome_of_lt (w : Nat) (h : w < 4) :
    ∃ size, number.Size.from_exponent w = some size := by
  have hw : w = 0 ∨ w = 1 ∨ w = 2 ∨ w = 3 := by omega
  rcases hw with rfl | rfl | rfl | rfl <;> exact ⟨_, rfl⟩

/-- `Data::new` never reaches the `crash` outcome: the registers-byte width
field is always a valid size exponent. -/
theorem data_new_not_crash (stream : List Nat) (presence : operand.OperandsPresence)
    (driver : Driver) : (Data.new stream presence driver).isCrash = false := by
  cases stream with
  | nil => rfl
  | cons b rest =>
    have h4 : extract_width b < 4 := by
      rw [extract_width_eq]
      omega
    obtain ⟨size, hsize⟩ := from_exponent_isSome_of_lt (extract_width b) h4
    simp only [Data.new]
    split
    · rfl
    · split
      · rfl
      · split
        · rfl
        · rename_i heq
          simp only [Registers.new] at heq
          rw [hsize] at heq
          exact Option.noConfusion heq

/-- `Instruction::new` never reaches the `crash` outcome. -/
theorem instruction_new_not_crash (stream : List Nat) :
    (Instruction.new stream).isCrash = false := by
  cases stream with
  | nil => rfl
  | cons b0 t =>
    cases t with
    | nil => rfl
    | cons b1 rest =>
      simp only [Instruction.new]
      split
      · rfl
      · split
        · split
          · rfl
          · rfl
          · rename_i presence _ _ heq
            have := data_new_not_crash rest presence (Driver.new b0 b1)
            rw [heq] at this
            exact Bool.noConfusion this
        · rfl

/-- C6: decoding is total and never panics: on every input byte stream (and
for `Data::new` every presence and driver) the result is `ok` or a declared
error, never the modelled panic outcome; in particular the registers byte's
width field always lies in 0..3, so the
`Size::from_exponent(registers.width).unwrap()` in `Data::new` cannot
panic. -/
theorem decode_never_panics :
    (∀ stream presence driver, (Data.new stream presence driver).isCrash = false) ∧
    (∀ stream, (Instruction.new stream).isCrash = false) ∧
    (∀ byte, extract_width byte < 4) :=
  ⟨data_new_not_crash, instruction_new_not_crash, fun byte => by
    rw [extract_width_eq]
    omega⟩

/-- C7: `Instruction::destination` returns `Err Data` without data; with
data it returns the static operand or `Err Static` when the destination is
static, and the dynamic operand or `Err Dynamic` when it is dynamic,
according to presence. -/
theorem destination_selection (i : Instruction) :
    (i.data = none → i.destination = .error .Data) ∧
    (∀ d, i.data = some d →
      (d.destination = .Static →
        (∀ s, d.operands.x_static = some s → i.destination = .ok (.Static s)) ∧
        (d.operands.x_static = none → i.destination = .error .Static)) ∧
      (d.destination = .Dynamic →
        (∀ dy, d.operands.x_dynamic = some dy → i.destination = .ok (.Dynamic dy)) ∧
        (d.operands.x_dynamic = none → i.destination = .error .Dynamic))) := by
  obtain ⟨ext, data⟩ := i
  constructor
  · intro h
    subst h
    rfl
  · intro d hd
    cases hd
    constructor
    · intro hdest
      constructor
      · intro s hs
        simp [Instruction.destination, hdest, hs]
      · intro hs
        simp [Instruction.destination, hdest, hs]
    · intro hdest
      constructor
      · intro dy hdy
        simp [Instruction.destination, hdest, hdy]
      · intro hdy
        simp [Instruction.destination, hdest, hdy]

/-- Witness for C7 on concrete instructions covering the data-absent case
and a present static destination. -/
theorem destination_selection_witness :
    ({ extension := Extension.NoOperands, data := none } : Instruction).destination =
      .error .Data ∧
    ({ extension := Extension.Arithmetic Arithmetic.Add,
       data := some { width := .Byte, destination := .Static, synchronous := false,
                      operands := .AllPresent 3 (.Register 1) } } : Instruction).destination =
      .ok (.Static 3) :=
  ⟨(destination_selection { extension := Extension.NoOperands, data := none }).1 rfl,
    (((destination_selection
        { extension := Extension.Arithmetic Arithmetic.Add,
          data := some { width := .Byte, destination := .Static, synchronous := false,
                         operands := .AllPresent 3 (.Register 1) } }).2
      _ rfl).1 rfl).1 3 rfl⟩

/-- C8: the concrete driver {ARITHMETIC, ADD, synchronise, static
destination, Constant addressing, byte immediate exponent} with registers
{width 0, static 1, dynamic 0} and immediate `Byte 10` encodes to exactly
the four bytes of the spec's scenario. -/
theorem encode_concrete_scenario :
    Instruction.encode_driver_registers_immediate
      { extension := ARITHMETIC_CODE, operation := ADD_CODE, synchronise := true,
        dynamic_destination := false, addressing := operand.CONSTANT_ADDRESSING,
        immediate_exponent := operand.IMMEDIATE_EXPONENT_BYTE }
      (some { width := 0, x_static := 1, x_dynamic := 0 })
      (some (number.Data.Byte 10)) =
      some [0b00000010, 0b00001000, 0b00001000, 0b00001010] := by
  decide

/-- C9: the byte-count to `Type` conversion succeeds exactly on 1, 2, 4, 8
(yielding Byte, Word, Dual, Quad) and fails with `RangeError` on every
other byte value. -/
theorem absolute_try_from_exact :
    AbsoluteType.try_from BYTE = .ok .Byte ∧
    AbsoluteType.try_from WORD = .ok .Word ∧
    AbsoluteType.try_from DUAL = .ok .Dual ∧
    AbsoluteType.try_from QUAD = .ok .Quad ∧
    ∀ n < 256, n ≠ 1 → n ≠ 2 → n ≠ 4 → n ≠ 8 →
      AbsoluteType.try_from n = .error .mk := by
  refine ⟨rfl, rfl, rfl, rfl, ?_⟩
  intro n hn h1 h2 h4 h8
  simp [AbsoluteType.try_from, BYTE, WORD, DUAL, QUAD, h1, h2, h4, h8]

/-- Witness for C9 at concrete inputs, one succeeding and one failing. -/
theorem absolute_try_from_exact_witness :
    AbsoluteType.try_from BYTE = .ok .Byte ∧
    AbsoluteType.try_from 3 = .error .mk :=
  ⟨absolute_try_from_exact.1,
    absolute_try_from_exact.2.2.2.2 3 (by decide) (by decide) (by decide) (by decide)
      (by decide)⟩

/-- C10: `encode_driver_registers_immediate` returns `none` exactly when an
immediate is supplied without a registers byte; otherwise it returns the
two driver bytes, then the registers byte when present, then the
immediate's little-endian bytes when present. -/
theorem encode_driver_registers_immediate_shape (driver : Driver)
    (registers : Option Registers) (immediate : Option number.Data) :
    (Instruction.encode_driver_registers_immediate driver registers immediate = none ↔
      registers = none ∧ immediate.isSome = true) ∧
    (Instruction.encode_driver_registers_immediate driver none none =
      some [(driver.encode).1, (driver.encode).2]) ∧
    (∀ regs, Instruction.encode_driver_registers_immediate driver (some regs) none =
      some [(driver.encode).1, (driver.encode).2, regs.encode]) ∧
    (∀ regs im, Instruction.encode_driver_registers_immediate driver (some regs) (some im) =
      some ([(driver.encode).1, (driver.encode).2, regs.encode] ++ im.to_le_bytes)) := by
  refine ⟨?_, rfl, fun regs => rfl, fun regs im => rfl⟩
  cases registers <;> cases immediate <;>
    simp [Instruction.encode_driver_registers_immediate]
